import Mathlib

/-!
Verification of the container lifecycle engine (package `dft`).

The Go sources are embedded shallowly:
- pure string manipulation (`strings.Split`, `strings.ReplaceAll`,
  `strconv.ParseUint`) is reimplemented over `List Char` with Go semantics;
- every external `docker` invocation is an oracle value (captured stdout,
  stderr, exit status / error) supplied as an explicit argument, and each
  polling loop consumes an explicit list of tick observations;
- Go's `(value, error)` returns become pairs with `Option String` errors,
  and a slice-bounds / index panic is modelled as `Option.none`.
-/

namespace DFT

/-- Strings are modelled at character granularity (the Go code under study
only manipulates ASCII output of the docker CLI). -/

abbrev Str := List Char

/-- `hasOcc pat s` is true when `pat` occurs as a contiguous substring of `s`. -/
def hasOcc (pat : Str) : Str → Bool
  | [] => pat.isPrefixOf []
  | c :: rest => pat.isPrefixOf (c :: rest) || hasOcc pat rest

/-- Worker for Go `strings.Split` with separator `c0 :: sep` (non-empty).
Scans left to right; at the leftmost separator occurrence it ends the
current chunk and continues after the separator. The `skip` counter
consumes the tail of a just-matched separator one character at a time,
which keeps the recursion structural. -/
def splitSkip (c0 : Char) (sep : Str) : Nat → Str → List Str
  | _, [] => [ [] ]
  | k, c :: rest =>
    match k with
    | k2 + 1 => splitSkip c0 sep k2 rest
    | 0 =>
      if (c0 :: sep).isPrefixOf (c :: rest) then
        [] :: splitSkip c0 sep sep.length rest
      else
        match splitSkip c0 sep 0 rest with
        | [] => [ [ c ] ]
        | p :: ps => (c :: p) :: ps

/-- Split in the normal (not skipping) mode. -/
def splitOnSepAux (c0 : Char) (sep : Str) (s : Str) : List Str :=
  splitSkip c0 sep 0 s

/-- Go `strings.Split`. For an empty separator Go splits into UTF-8 runes
(that case is never exercised by this code base). -/
def goSplit (sep : Str) (s : Str) : List Str :=
  match sep with
  | [] => s.map (fun c => [ c ])
  | c0 :: rest => splitOnSepAux c0 rest s

/-- Worker for Go `strings.ReplaceAll` with pattern `c0 :: old`
(non-empty): replaces every non-overlapping occurrence, scanning left to
right, with the same structural `skip` technique as `splitSkip`. -/
def replaceSkip (c0 : Char) (old new : Str) : Nat → Str → Str
  | _, [] => []
  | k, c :: rest =>
    match k with
    | k2 + 1 => replaceSkip c0 old new k2 rest
    | 0 =>
      if (c0 :: old).isPrefixOf (c :: rest) then
        new ++ replaceSkip c0 old new old.length rest
      else
        c :: replaceSkip c0 old new 0 rest

/-- Replacement in the normal (not skipping) mode. -/
def replaceAllAux (c0 : Char) (old new : Str) (s : Str) : Str :=
  replaceSkip c0 old new 0 s

/-- Go `strings.ReplaceAll`. With an empty pattern Go interleaves the
replacement between runes; the code base only uses non-empty patterns. -/
def goReplaceAll (old new : Str) (s : Str) : Str :=
  match old with
  | [] => s
  | c0 :: o => replaceAllAux c0 o new s

/-- Decimal value of a digit string (Go accumulates left to right). -/
def digitsVal (s : Str) : Nat :=
  s.foldl (fun acc c => acc * 10 + (c.toNat - 48)) 0

/-- Go `strconv.ParseUint(s, 10, 64)`: fails on the empty string, on any
non-digit character, and on overflow past 64 bits; otherwise the decimal
value. -/
def parseUint64 (s : Str) : Option Nat :=
  if s = [] then none
  else if s.all (fun c => c.isDigit) then
    if digitsVal s < 2 ^ 64 then some (digitsVal s) else none
  else none

/-! Constants from `docker.go`. The inspect format string wraps the status
in single quotes, so the captured stdout of a status inspection is the
quoted status followed by a newline. -/

def idLength : Nat := 12

/-- A single-quote character, kept out of string literals. -/
def squote : String := String.mk [ Char.ofNat 39 ]

def stateCreated : String := squote ++ "created" ++ squote ++ "\n"

def stateDead : String := squote ++ "dead" ++ squote ++ "\n"

def stateExited : String := squote ++ "exited" ++ squote ++ "\n"

def statePaused : String := squote ++ "paused" ++ squote ++ "\n"

def stateRestarting : String := squote ++ "restarting" ++ squote ++ "\n"

def stateRunning : String := squote ++ "running" ++ squote ++ "\n"

/-! `startContainer` (docker.go): rendering of the `docker run` argument
list from the launch configuration. Port pairs arrive as
`(internalPort, hostPort)`: `WithPort(port, target)` appends
`[2]uint{port, target}` where `port` is the container-internal port. -/

/-- The value passed after `-p`: bare `exposedPorts[i][0]` when
`exposedPorts[i][1] == 0`, else `exposedPorts[i][0] ++ ":" ++ exposedPorts[i][1]`. -/
def portFlagValue (pr : Nat × Nat) : String :=
  if pr.2 = 0 then toString pr.1 else toString pr.1 ++ ":" ++ toString pr.2

/-- Modelled from the spec: the `-p` value in the `host:internal` form
(bare internal port when hostPort = 0), as section 4.2 of the spec and the
`WithPort` doc comment require. -/
def portFlagValueSpec (pr : Nat × Nat) : String :=
  if pr.2 = 0 then toString pr.1 else toString pr.2 ++ ":" ++ toString pr.1

/-- The full argument list built by `startContainer` before the command runs. -/
def startContainerArgs (imageName : String) (arguments envVars : List String)
    (exposedPorts : List (Nat × Nat)) (mounts : List (String × String)) : List String :=
  let args0 := [ "run", "-d" ]
  let args1 := exposedPorts.foldl (fun a pr => a ++ [ "-p", portFlagValue pr ]) args0
  let args2 := envVars.foldl (fun a e => a ++ [ "-e", e ]) args1
  let args3 := mounts.foldl
    (fun a m => a ++ [ "--mount", "type=bind,source=" ++ m.1 ++ ",target=" ++ m.2 ]) args2
  args3 ++ [ imageName ] ++ arguments

/-! `containerIsAlive` (docker.go): the liveness poller. Each tick inspects
the container status; the captured stdout is classified by the `switch`. -/

inductive LiveOutcome
  | failed (msg : String)
  | ready
  | waiting
deriving DecidableEq

/-- The failure message built for a terminal failure status (the raw state
string is interpolated twice: once as the state, once as captured stdout). -/
def invalidStateMsg (state stdErrCap : String) : String :=
  "container in invalid state: " ++ state ++ "\nstdOut:" ++ state ++ "\nstdErr:" ++ stdErrCap

/-- One tick of the liveness state machine: the `switch` on the captured
status string. -/
def livenessStep (state stdErrCap : String) : LiveOutcome :=
  if state = stateDead ∨ state = stateExited ∨ state = statePaused ∨ state = stateRestarting then
    LiveOutcome.failed (invalidStateMsg state stdErrCap)
  else if state = stateRunning then LiveOutcome.ready
  else LiveOutcome.waiting

/-- Error reported when the inspect command itself fails
(`errors.Join` of the command error and the wrapped stderr). -/
def inspectJoinMsg (cmdErr stdErrCap : String) : String :=
  cmdErr ++ "\n" ++ "unable to inspect container: " ++ stdErrCap

/-- One observation of the inspect command on a poller tick. -/
inductive InspectTick
  | cmdFailed (cmdErr stdErrCap : String)
  | inspected (stdOutCap stdErrCap : String)
deriving DecidableEq

inductive AliveOutcome
  | failed (msg : String)
  | ready
deriving DecidableEq

/-- The liveness polling loop over a finite sequence of inspections;
`none` means the poller is still in the starting state when the
observations run out. -/
def containerIsAlive : List InspectTick → Option AliveOutcome
  | [] => none
  | InspectTick.cmdFailed e se :: _ => some (AliveOutcome.failed (inspectJoinMsg e se))
  | InspectTick.inspected so se :: rest =>
    match livenessStep so se with
    | LiveOutcome.failed m => some (AliveOutcome.failed m)
    | LiveOutcome.ready => some AliveOutcome.ready
    | LiveOutcome.waiting => containerIsAlive rest

/-- Whether a tick observed the running status. -/
def tickIsRunningB : InspectTick → Bool
  | InspectTick.inspected so _ => so == stateRunning
  | _ => false

/-! `startContainer` (docker.go): outcome of the `docker run` invocation.
The command execution is an oracle (captured stdout/stderr and the
`cmd.Run()` error). On success the Go code evaluates
`stdOutCapture.String()[:idLength]` with no trimming or validation; a
stdout shorter than 12 bytes would make that slice panic, modelled as
`none`. The `%q` quoting of the joined argument list in the failure
message is simplified to a plain join. -/

structure RunResult where
  stdOutCap : String
  stdErrCap : String
  runErr : Option String
deriving DecidableEq

/-- The `LaunchFailed` message built on a non-zero exit. -/
def startFailMsg (stdOutCap stdErrCap : String) (args : List String) : String :=
  "unable to start container:\n" ++ stdOutCap ++ "\n" ++ stdErrCap ++ "\nargs: " ++
    String.intercalate " " args

/-- `startContainer`: either the launch failure (wrapping captured output
and the rendered argument list) or the first 12 characters of stdout. -/
def startContainer (imageName : String) (arguments envVars : List String)
    (exposedPorts : List (Nat × Nat)) (mounts : List (String × String)) (run : RunResult) :
    Option (Except String String) :=
  match run.runErr with
  | some _ => some (Except.error (startFailMsg run.stdOutCap run.stdErrCap
      (startContainerArgs imageName arguments envVars exposedPorts mounts)))
  | none =>
    if idLength ≤ run.stdOutCap.length then some (Except.ok (run.stdOutCap.take idLength))
    else none

/-! `getPublishedPorts` (docker.go). The `docker port <id>` output is
scanned line by line; each line is split on " -> ", the left part has
"/tcp" removed and is parsed as a uint, and the right part is appended
verbatim to the map entry of that port. The Go map is modelled as an
association list in insertion order (only lookup, length and per-key
append are used, so iteration order is irrelevant). -/

/-- The Go `map[uint][]string` of port mappings. -/
abbrev PortMap := List (Nat × List Str)

/-- Map lookup (`strs, ok := m[port]`): `none` models `ok == false`. -/
def pmLookup (m : PortMap) (p : Nat) : Option (List Str) :=
  match m with
  | [] => none
  | (k, v) :: rest => if k = p then some v else pmLookup rest p

/-- `m[port] = append(m[port], addr)`: append to the entry, creating it at
the end when absent. -/
def pmUpdate (m : PortMap) (p : Nat) (addr : Str) : PortMap :=
  match m with
  | [] => [ (p, [ addr ]) ]
  | (k, v) :: rest => if k = p then (k, v ++ [ addr ]) :: rest else (k, v) :: pmUpdate rest p addr

/-- The separator " -> " of a published-port line. -/
def arrowSep : Str := [ ' ', '-', '>', ' ' ]

/-- The "/tcp" pattern removed from the left-hand side. -/
def tcpSuffix : Str := [ '/', 't', 'c', 'p' ]

/-- Outcome of processing one scanner line: parse failure triggers the
early return; accessing `parts[1]` on a line with no " -> " would panic. -/
inductive LineResult
  | panicked
  | parseFailed
  | okLine (m : PortMap)
deriving DecidableEq

/-- One iteration of the scan loop in `getPublishedPorts`. -/
def scanPortLine (m : PortMap) (t : Str) : LineResult :=
  let parts := goSplit arrowSep t
  match parseUint64 (goReplaceAll tcpSuffix [] (parts.headD [])) with
  | none => LineResult.parseFailed
  | some port =>
    match parts.get? 1 with
    | none => LineResult.panicked
    | some addr => LineResult.okLine (pmUpdate m port addr)

inductive ScanOutcome
  | panicked
  | parseFailed
  | done (m : PortMap)
deriving DecidableEq

/-- The whole scanner loop. -/
def scanPortLines (m : PortMap) : List Str → ScanOutcome
  | [] => ScanOutcome.done m
  | t :: rest =>
    match scanPortLine m t with
    | LineResult.panicked => ScanOutcome.panicked
    | LineResult.parseFailed => ScanOutcome.parseFailed
    | LineResult.okLine m2 => scanPortLines m2 rest

/-- A Go `(value, error)` return, with `panicked` for runtime panics. -/
inductive GoResult (α : Type)
  | panicked
  | returned (val : Option α) (err : Option String)
deriving DecidableEq

/-- `getPublishedPorts`: the port query command is an oracle
(`cmdErr`/`cmdStdErr`), its stdout is the list of scanner lines. On a
command failure the wrapped stderr is returned; on a line whose left-hand
side fails to parse, the code returns `nil` together with `err` — which at
that point is the *stale nil* error of the successful command run. -/
def getPublishedPorts (cmdErr : Option String) (cmdStdErr : String) (lines : List Str) :
    GoResult PortMap :=
  match cmdErr with
  | some _ =>
    GoResult.returned none (some ("unable to retrieve container ports: " ++ cmdStdErr))
  | none =>
    match scanPortLines [] lines with
    | ScanOutcome.panicked => GoResult.panicked
    | ScanOutcome.parseFailed => GoResult.returned none none
    | ScanOutcome.done m => GoResult.returned (some m) none

/-- A published line as the spec describes it: a digit string for the
internal port and a host address, rendered as "<port>/tcp -> <addr>". -/
def renderPortLine (pr : Str × Str) : Str :=
  pr.1 ++ tcpSuffix ++ arrowSep ++ pr.2

/-- Well-formedness of a structured line: non-empty all-digit port that
fits 64 bits, and an address free of the " -> " separator. -/
abbrev goodPortLine (pr : Str × Str) : Prop :=
  pr.1 ≠ [] ∧ pr.1.all (fun c => c.isDigit) = true ∧ digitsVal pr.1 < 2 ^ 64 ∧
    hasOcc arrowSep pr.2 = false

/-- The addresses the spec expects for internal port `p`: the right-hand
sides of the lines whose left-hand side parses to `p`, in line order. -/
def collectAddrs (p : Nat) : List (Str × Str) → List Str
  | [] => []
  | pr :: rest =>
    if parseUint64 pr.1 = some p then pr.2 :: collectAddrs p rest else collectAddrs p rest

/-- Same collection keyed by the decimal value directly (used while the
fold invariant is being established). -/
def collectValAddrs (p : Nat) : List (Str × Str) → List Str
  | [] => []
  | pr :: rest =>
    if digitsVal pr.1 = p then pr.2 :: collectValAddrs p rest else collectValAddrs p rest

/-- Combine a map entry with newly collected addresses. -/
def lookupD (o : Option (List Str)) (l : List Str) : Option (List Str) :=
  if l = [] then o else some (o.getD [] ++ l)

/-- The map produced by folding the per-line updates, used to state the
round trip without an existential. -/
def foldPortLines (m : PortMap) (ls : List (Str × Str)) : PortMap :=
  ls.foldl (fun acc pr => pmUpdate acc (digitsVal pr.1) pr.2) m

/-! The port-discovery loop inside `newContainer`: each tick either
observes the caller's cancellation or one `getPublishedPorts` result as
the Go caller sees it (`pm, pErr`). An empty (or nil) mapping means the
ports are not published yet, so polling continues. -/

inductive PortTick
  | ctxDone (e : String)
  | query (pm : Option PortMap) (pErr : Option String)
deriving DecidableEq

/-- The discovery loop; `none` means no outcome was reported within the
observed ticks. -/
def portLoop : List PortTick → Option (Except String PortMap)
  | [] => none
  | PortTick.ctxDone e :: _ => some (Except.error e)
  | PortTick.query pm pErr :: rest =>
    match pErr with
    | some e => some (Except.error e)
    | none =>
      if (pm.getD []).length = 0 then portLoop rest
      else some (Except.ok (pm.getD []))

/-! The `Container` handle and `ExposedPorts` (container.go). -/

structure Container where
  id : String
  portMappings : PortMap
deriving DecidableEq

/-- The loop body of `ExposedPorts`: split each stored address on ":",
parse `parts[1]` as a uint and collect the values in order. A missing
`parts[1]` (no colon in the address) is a Go index panic, modelled as
`none`; a parse failure returns `(nil, false)`. -/
def exposedLoop : List Str → List Nat → Option (Option (List Nat) × Bool)
  | [], acc => some (some acc, true)
  | s :: rest, acc =>
    match (goSplit [ ':' ] s).get? 1 with
    | none => none
    | some p1 =>
      match parseUint64 p1 with
      | none => some (none, false)
      | some v => exposedLoop rest (acc ++ [ v ])

/-- `Container.ExposedPorts`: `(nil, false)` when the port is absent from
the handle's mapping, otherwise the parsed host ports of every stored
address. -/
def ExposedPorts (c : Container) (port : Nat) : Option (Option (List Nat) × Bool) :=
  match pmLookup c.portMappings port with
  | none => some (none, false)
  | some strs => exposedLoop strs []

/-- An address of the "<ip>:<port>" shape the claim describes. -/
def renderAddr (pr : Str × Str) : Str :=
  pr.1 ++ ':' :: pr.2

/-- Well-formedness of a structured address: colon-free host part and a
non-empty, 64-bit, all-digit port part. -/
abbrev goodAddr (pr : Str × Str) : Prop :=
  (∀ c ∈ pr.1, c ≠ ':') ∧ pr.2 ≠ [] ∧ pr.2.all (fun c => c.isDigit) = true ∧
    digitsVal pr.2 < 2 ^ 64

/-! `newContainer` (container.go). The start command, the liveness poller
and the port-discovery loop are oracles; the deferred cleanup closure runs
`Container{id: id}.Stop` under a context built from `context.Background()`
with a 5-second timeout whenever the named error is non-nil at return. -/

/-- The cancellation budget used for an operation: the caller's context or
a fresh `context.Background()`-derived timeout in milliseconds. -/
inductive CleanupCtx
  | freshTimeout (ms : Nat)
deriving DecidableEq

structure LaunchEnv where
  imageName : String
  startRes : Except String String
  aliveTicks : List InspectTick
  portTicks : List PortTick
  logs : String

/-- What `newContainer` produced and which best-effort `Stop` attempts it
made (container id paired with the cancellation budget used). -/
structure LaunchOutcome where
  res : Except String Container
  cleanup : List (String × CleanupCtx)

/-- The error wrapper "[image](id) err" used right after `startContainer`. -/
def startFailWrap (img id e : String) : String :=
  "[" ++ img ++ "](" ++ id ++ ") " ++ e

/-- The error wrapper "[image](id) err\nlogs:l" used on the failure paths
after the container started. -/
def launchFailMsg (img id e l : String) : String :=
  "[" ++ img ++ "](" ++ id ++ ") " ++ e ++ "\nlogs:" ++ l

/-- `newContainer`: `none` when a polling loop never reports within its
observed ticks (the Go code would still be blocked). -/
def newContainer (env : LaunchEnv) (exposedPorts : List (Nat × Nat)) : Option LaunchOutcome :=
  match env.startRes with
  | Except.error e =>
    some (LaunchOutcome.mk (Except.error (startFailWrap env.imageName "" e)) [])
  | Except.ok id =>
    match containerIsAlive env.aliveTicks with
    | none => none
    | some (AliveOutcome.failed e) =>
      some (LaunchOutcome.mk
        (Except.error (launchFailMsg env.imageName id e env.logs))
        [ (id, CleanupCtx.freshTimeout 5000) ])
    | some AliveOutcome.ready =>
      if exposedPorts.length > 0 then
        match portLoop env.portTicks with
        | none => none
        | some (Except.error e) =>
          some (LaunchOutcome.mk
            (Except.error (launchFailMsg env.imageName id e env.logs))
            [ (id, CleanupCtx.freshTimeout 5000) ])
        | some (Except.ok pm) =>
          some (LaunchOutcome.mk (Except.ok (Container.mk id pm)) [])
      else
        some (LaunchOutcome.mk (Except.ok (Container.mk id [])) [])

/-! `Container.Stop` (container.go): stop the container, enumerate its
volume-type mounts, remove the container, then delete the enumerated
volumes in one batched call. Each docker invocation is an oracle result in
the environment; the trace records which steps ran, with the batched
volume deletion carrying the ids it was invoked with. -/

structure StopEnv where
  stopRes : Option String
  volsRes : Except String (List String)
  removeRes : Option String
  deleteRes : Option String

inductive StopStep
  | stopStep
  | volsStep
  | removeStep
  | deleteStep (ids : List String)
deriving DecidableEq

/-- `Stop`: the returned error (`none` for success) and the ordered trace
of attempted steps. -/
def Stop (env : StopEnv) : Option String × List StopStep :=
  match env.stopRes with
  | some e => (some e, [ StopStep.stopStep ])
  | none =>
    match env.volsRes with
    | Except.error e => (some e, [ StopStep.stopStep, StopStep.volsStep ])
    | Except.ok ids =>
      match env.removeRes with
      | some e => (some e, [ StopStep.stopStep, StopStep.volsStep, StopStep.removeStep ])
      | none =>
        if ids = [] then
          (none, [ StopStep.stopStep, StopStep.volsStep, StopStep.removeStep ])
        else
          (env.deleteRes,
            [ StopStep.stopStep, StopStep.volsStep, StopStep.removeStep,
              StopStep.deleteStep ids ])

/-! `Container.WaitCmd` (container.go): each tick runs the probe through
`dockerExecute` or `hostExecute` (both captured as one oracle result) and
then evaluates the caller's predicate on the captured output and exit
code. -/

structure ProbeResult where
  stdOutCap : String
  stdErrCap : String
  code : Int
  runErr : Option String

/-- The `ProbeUnrunnable` message (`%w` of the run error plus captured
streams). -/
def waitErrMsg (p : ProbeResult) : String :=
  "wait command errored: " ++ p.runErr.getD "" ++ "\n\tstdErr:" ++ p.stdErrCap ++
    "\n\tstdOut:" ++ p.stdOutCap

inductive WaitTick
  | failNow (msg : String)
  | succeeded
  | nextTick

/-- One tick of the wait engine: fail hard on the -1 sentinel paired with
an error, otherwise consult the predicate. -/
def waitCmdTick (met : String → String → Int → Bool) (p : ProbeResult) : WaitTick :=
  if p.runErr.isSome ∧ p.code = -1 then WaitTick.failNow (waitErrMsg p)
  else if met p.stdOutCap p.stdErrCap p.code then WaitTick.succeeded
  else WaitTick.nextTick

/-- A tick observation: the caller's cancellation or one probe run. -/
inductive WaitInput
  | ctxDone (e : String)
  | probe (p : ProbeResult)

/-- The wait loop; `some (some e)` is an error outcome, `some none`
success, `none` still polling after the observed ticks. -/
def WaitCmd (met : String → String → Int → Bool) : List WaitInput → Option (Option String)
  | [] => none
  | WaitInput.ctxDone e :: _ => some (some e)
  | WaitInput.probe p :: rest =>
    match waitCmdTick met p with
    | WaitTick.failNow m => some (some m)
    | WaitTick.succeeded => some none
    | WaitTick.nextTick => WaitCmd met rest

/-! `WithEnvVar` (options.go). The option closure appends one entry to the
configuration's env slice, uppercasing the key with `strings.ToUpper`
(modelled on its ASCII fragment; the docker env keys in play are ASCII). -/

def goToUpper (s : String) : String :=
  String.mk (s.data.map Char.toUpper)

structure containerCfg where
  args : Option (List String)
  env : Option (List String)
  mounts : Option (List (String × String))
  ports : Option (List (Nat × Nat))

/-- `WithEnvVar(key, value)`: allocate the env slice when absent, then
append `strings.ToUpper(key) + "=" + value`. -/
def WithEnvVar (key value : String) (cfg : containerCfg) : containerCfg :=
  containerCfg.mk cfg.args
    (some (cfg.env.getD [] ++ [ goToUpper key ++ "=" ++ value ]))
    cfg.mounts cfg.ports


/-! Proofs. -/

lemma isPrefixOf_append_self (l t : Str) : l.isPrefixOf (l ++ t) = true := by
  induction l with
  | nil => simp [List.isPrefixOf]
  | cons c cs ih => simp [List.isPrefixOf, ih]

lemma isPrefixOf_cons_ne (c0 c : Char) (sep rest : Str) (h : c ≠ c0) :
    (c0 :: sep).isPrefixOf (c :: rest) = false := by
  simp [List.isPrefixOf]
  intro heq
  exact absurd heq.symm h

lemma splitSkip_skip (c0 : Char) (sep : Str) :
    ∀ t s : Str, splitSkip c0 sep t.length (t ++ s) = splitSkip c0 sep 0 s := by
  intro t
  induction t with
  | nil => intro s; rfl
  | cons c t2 ih =>
    intro s
    rw [List.length_cons, List.cons_append, splitSkip]
    exact ih s

lemma splitOnSepAux_no_occ (c0 : Char) (sep : Str) :
    ∀ s, hasOcc (c0 :: sep) s = false → splitOnSepAux c0 sep s = [ s ] := by
  intro s
  induction s with
  | nil => intro _; rfl
  | cons c rest ih =>
    intro h
    simp only [hasOcc, Bool.or_eq_false_iff] at h
    rw [splitOnSepAux, splitSkip]
    rw [h.1]
    simp only [Bool.false_eq_true, if_false]
    rw [show splitSkip c0 sep 0 rest = splitOnSepAux c0 sep rest from rfl]
    rw [ih h.2]

lemma splitOnSepAux_boundary (c0 : Char) (sep : Str) :
    ∀ a b : Str, (∀ c ∈ a, c ≠ c0) →
    splitOnSepAux c0 sep (a ++ (c0 :: sep) ++ b) = a :: splitOnSepAux c0 sep b := by
  intro a
  induction a with
  | nil =>
    intro b _
    simp only [List.nil_append, List.cons_append]
    rw [splitOnSepAux, splitSkip]
    rw [show (c0 :: sep).isPrefixOf (c0 :: (sep ++ b)) = true from
      isPrefixOf_append_self (c0 :: sep) b]
    simp only [if_true]
    rw [splitSkip_skip c0 sep sep b]
    rfl
  | cons x a2 ih =>
    intro b hx
    have hxc : x ≠ c0 := hx x (List.mem_cons_self x a2)
    simp only [List.cons_append]
    rw [splitOnSepAux, splitSkip]
    rw [isPrefixOf_cons_ne c0 x sep (a2 ++ (c0 :: sep) ++ b) hxc]
    simp only [Bool.false_eq_true, if_false]
    rw [show splitSkip c0 sep 0 (a2 ++ (c0 :: sep) ++ b) =
      splitOnSepAux c0 sep (a2 ++ (c0 :: sep) ++ b) from rfl]
    rw [ih b (fun c hc => hx c (List.mem_cons_of_mem x hc))]

lemma replaceSkip_skip (c0 : Char) (old new : Str) :
    ∀ t s : Str, replaceSkip c0 old new t.length (t ++ s) = replaceSkip c0 old new 0 s := by
  intro t
  induction t with
  | nil => intro s; rfl
  | cons c t2 ih =>
    intro s
    rw [List.length_cons, List.cons_append, replaceSkip]
    exact ih s

lemma replaceAllAux_no_occ (c0 : Char) (old new : Str) :
    ∀ s, hasOcc (c0 :: old) s = false → replaceAllAux c0 old new s = s := by
  intro s
  induction s with
  | nil => intro _; rfl
  | cons c rest ih =>
    intro h
    simp only [hasOcc, Bool.or_eq_false_iff] at h
    rw [replaceAllAux, replaceSkip]
    rw [h.1]
    simp only [Bool.false_eq_true, if_false]
    rw [show replaceSkip c0 old new 0 rest = replaceAllAux c0 old new rest from rfl]
    rw [ih h.2]

lemma replaceAllAux_boundary (c0 : Char) (old new : Str) :
    ∀ a b : Str, (∀ c ∈ a, c ≠ c0) →
    replaceAllAux c0 old new (a ++ (c0 :: old) ++ b) = a ++ new ++ replaceAllAux c0 old new b := by
  intro a
  induction a with
  | nil =>
    intro b _
    simp only [List.nil_append, List.cons_append]
    rw [replaceAllAux, replaceSkip]
    rw [show (c0 :: old).isPrefixOf (c0 :: (old ++ b)) = true from
      isPrefixOf_append_self (c0 :: old) b]
    simp only [if_true]
    rw [replaceSkip_skip c0 old new old b]
    rfl
  | cons x a2 ih =>
    intro b hx
    have hxc : x ≠ c0 := hx x (List.mem_cons_self x a2)
    simp only [List.cons_append]
    rw [replaceAllAux, replaceSkip]
    rw [isPrefixOf_cons_ne c0 x old (a2 ++ (c0 :: old) ++ b) hxc]
    simp only [Bool.false_eq_true, if_false]
    rw [show replaceSkip c0 old new 0 (a2 ++ (c0 :: old) ++ b) =
      replaceAllAux c0 old new (a2 ++ (c0 :: old) ++ b) from rfl]
    rw [ih b (fun c hc => hx c (List.mem_cons_of_mem x hc))]

lemma parseUint64_digits (s : Str) (h1 : s ≠ []) (h2 : s.all (fun c => c.isDigit) = true)
    (h3 : digitsVal s < 2 ^ 64) : parseUint64 s = some (digitsVal s) := by
  rw [parseUint64]
  rw [if_neg h1, if_pos h2, if_pos h3]

lemma digit_ne_of_not_digit (c x : Char) (hc : c.isDigit = true) (hx : x.isDigit = false) : c ≠ x := by
  intro heq
  rw [heq, hx] at hc
  exact Bool.false_ne_true hc

/-- C1: the claim says the `-p` value for a pair with non-zero host port is
`host:internal`; the code renders `internal:host`. For the pair
(internal 80, host 8080) the rendered argument list carries "80:8080",
while the spec-mandated form is "8080:80"; the two disagree. This also
contradicts the `WithPort` doc comment, since docker reads the left element
of `-p` as the host port. -/
theorem c1_portFlagValue_swapped :
    startContainerArgs "img" [] [] [ (80, 8080) ] [] = [ "run", "-d", "-p", "80:8080", "img" ] ∧
    portFlagValue (80, 8080) = "80:8080" ∧
    portFlagValueSpec (80, 8080) = "8080:80" ∧
    portFlagValue (80, 8080) ≠ portFlagValueSpec (80, 8080) := by
  refine ⟨ by decide, by decide, by decide, by decide ⟩

lemma livenessStep_eq_ready (s se : String) (h : livenessStep s se = LiveOutcome.ready) :
    s = stateRunning := by
  rw [livenessStep] at h
  split_ifs at h with h1 h2
  exact h2

/-- C2: the liveness status mapping is total: each of the four terminal
failure statuses reports a failure error whose message carries the raw
status string; running reports success; every other status string,
`created` included, leaves the poller waiting for the next tick, and a
run of ticks none of which observes the running status never reports
success. -/
theorem c2_liveness_mapping_total (se s : String) (ticks : List InspectTick) :
    (livenessStep stateDead se = LiveOutcome.failed (invalidStateMsg stateDead se)) ∧
    (livenessStep stateExited se = LiveOutcome.failed (invalidStateMsg stateExited se)) ∧
    (livenessStep statePaused se = LiveOutcome.failed (invalidStateMsg statePaused se)) ∧
    (livenessStep stateRestarting se = LiveOutcome.failed (invalidStateMsg stateRestarting se)) ∧
    (∀ st, ∃ pre post, invalidStateMsg st se = pre ++ st ++ post) ∧
    (livenessStep stateRunning se = LiveOutcome.ready) ∧
    (livenessStep stateCreated se = LiveOutcome.waiting) ∧
    (s ≠ stateDead → s ≠ stateExited → s ≠ statePaused → s ≠ stateRestarting →
      s ≠ stateRunning → livenessStep s se = LiveOutcome.waiting) ∧
    ((∀ t ∈ ticks, tickIsRunningB t = false) → containerIsAlive ticks ≠ some AliveOutcome.ready) := by
  refine ⟨ ?_, ?_, ?_, ?_, ?_, ?_, ?_, ?_, ?_ ⟩
  · rw [livenessStep, if_pos (Or.inl rfl)]
  · rw [livenessStep, if_pos (Or.inr (Or.inl rfl))]
  · rw [livenessStep, if_pos (Or.inr (Or.inr (Or.inl rfl)))]
  · rw [livenessStep, if_pos (Or.inr (Or.inr (Or.inr rfl)))]
  · intro st
    exact ⟨ "container in invalid state: ", "\nstdOut:" ++ st ++ "\nstdErr:" ++ se, by
      rw [invalidStateMsg]
      simp [String.append_assoc] ⟩
  · rw [livenessStep, if_neg (by decide), if_pos rfl]
  · rw [livenessStep, if_neg (by decide), if_neg (by decide)]
  · intro h1 h2 h3 h4 h5
    rw [livenessStep]
    rw [if_neg (fun hc => hc.elim h1 (fun hc2 => hc2.elim h2 (fun hc3 => hc3.elim h3 h4)))]
    rw [if_neg h5]
  · induction ticks with
    | nil =>
      intro _
      rw [containerIsAlive]
      exact Option.noConfusion
    | cons t rest ih =>
      intro h
      cases t with
      | cmdFailed e se2 =>
        rw [containerIsAlive]
        simp
      | inspected so se2 =>
        have hso : so ≠ stateRunning := by
          have hb := h (InspectTick.inspected so se2) (List.mem_cons_self _ _)
          rw [tickIsRunningB] at hb
          intro heq
          rw [heq] at hb
          simp at hb
        rw [containerIsAlive]
        cases hstep : livenessStep so se2 with
        | failed m => simp
        | ready => exact absurd (livenessStep_eq_ready so se2 hstep) hso
        | waiting => exact ih (fun t2 ht2 => h t2 (List.mem_cons_of_mem _ ht2))

/-- C2 witness: the mapping evaluated at concrete statuses — exited fails
with the raw status in the message, created keeps waiting, and a
created-then-unknown run never reports success. -/
theorem c2_liveness_mapping_total_witness :
    livenessStep stateExited "E" = LiveOutcome.failed (invalidStateMsg stateExited "E") ∧
    livenessStep stateCreated "E" = LiveOutcome.waiting ∧
    livenessStep "bogus\n" "E" = LiveOutcome.waiting ∧
    containerIsAlive
      [ InspectTick.inspected stateCreated "", InspectTick.inspected "bogus\n" "" ] ≠
      some AliveOutcome.ready := by
  refine ⟨ ?_, ?_, ?_, ?_ ⟩
  · exact (c2_liveness_mapping_total "E" "x" []).2.1
  · exact (c2_liveness_mapping_total "E" "x" []).2.2.2.2.2.2.1
  · exact (c2_liveness_mapping_total "E" "bogus\n" []).2.2.2.2.2.2.2.1
      (by decide) (by decide) (by decide) (by decide) (by decide)
  · exact (c2_liveness_mapping_total "" "x"
      [ InspectTick.inspected stateCreated "", InspectTick.inspected "bogus\n" "" ]).2.2.2.2.2.2.2.2
      (by decide)

/-- C6: when the start command exits zero (and stdout is long enough for
the unchecked slice not to panic), the returned identifier is exactly the
first 12 characters of the raw captured stdout — no trimming, no
validation. -/
theorem c6_id_is_first_twelve_chars (imageName : String) (arguments envVars : List String)
    (exposedPorts : List (Nat × Nat)) (mounts : List (String × String)) (run : RunResult)
    (h1 : run.runErr = none) (h2 : idLength ≤ run.stdOutCap.length) :
    startContainer imageName arguments envVars exposedPorts mounts run =
      some (Except.ok (run.stdOutCap.take idLength)) := by
  rw [startContainer, h1]
  rw [if_pos h2]

/-- C6 witness: a stdout whose first 12 characters include an untrimmed
newline is returned verbatim. -/
theorem c6_id_is_first_twelve_chars_witness :
    startContainer "img" [] [] [] [] (RunResult.mk "abc\n5678901234" "" none) =
      some (Except.ok "abc\n56789012") := by
  rw [c6_id_is_first_twelve_chars "img" [] [] [] [] (RunResult.mk "abc\n5678901234" "" none)
    rfl (by decide)]
  rfl

lemma arrowSep_eq : arrowSep = ' ' :: [ '-', '>', ' ' ] := rfl

lemma tcpSuffix_eq : tcpSuffix = '/' :: [ 't', 'c', 'p' ] := rfl

lemma goSplit_two (c0 : Char) (sep a b : Str) (ha : ∀ c ∈ a, c ≠ c0)
    (hb : hasOcc (c0 :: sep) b = false) :
    goSplit (c0 :: sep) (a ++ (c0 :: sep) ++ b) = [ a, b ] := by
  rw [goSplit]
  rw [splitOnSepAux_boundary c0 sep a b ha]
  rw [splitOnSepAux_no_occ c0 sep b hb]

lemma goReplaceAll_strip (c0 : Char) (old a : Str) (ha : ∀ c ∈ a, c ≠ c0) :
    goReplaceAll (c0 :: old) [] (a ++ (c0 :: old)) = a := by
  rw [goReplaceAll]
  have hb := replaceAllAux_boundary c0 old [] a [] ha
  simp only [List.append_nil] at hb
  rw [hb]
  simp [replaceAllAux, replaceSkip]

lemma digits_ne_space (d : Str) (h : d.all (fun c => c.isDigit) = true) :
    ∀ c ∈ d ++ tcpSuffix, c ≠ ' ' := by
  intro c hc
  rcases List.mem_append.mp hc with h1 | h2
  · exact digit_ne_of_not_digit c ' ' (by
      have := List.all_eq_true.mp h c h1
      simpa using this) (by decide)
  · rw [tcpSuffix_eq] at h2
    fin_cases h2 <;> decide

lemma digits_ne_slash (d : Str) (h : d.all (fun c => c.isDigit) = true) :
    ∀ c ∈ d, c ≠ '/' := by
  intro c hc
  exact digit_ne_of_not_digit c '/' (by
    have := List.all_eq_true.mp h c hc
    simpa using this) (by decide)

lemma scanPortLine_render (m : PortMap) (d a : Str) (h : goodPortLine (d, a)) :
    scanPortLine m (renderPortLine (d, a)) = LineResult.okLine (pmUpdate m (digitsVal d) a) := by
  obtain ⟨ h1, h2, h3, h4 ⟩ := h
  have hsplit : goSplit arrowSep (renderPortLine (d, a)) = [ d ++ tcpSuffix, a ] := by
    rw [renderPortLine]
    rw [show (d ++ tcpSuffix ++ arrowSep ++ a : Str) = ((d ++ tcpSuffix) ++ arrowSep ++ a : Str) by
      simp [List.append_assoc]]
    rw [arrowSep_eq] at h4 ⊢
    exact goSplit_two ' ' [ '-', '>', ' ' ] (d ++ tcpSuffix) a (digits_ne_space d h2) h4
  have hstrip : goReplaceAll tcpSuffix [] (d ++ tcpSuffix) = d := by
    rw [tcpSuffix_eq]
    exact goReplaceAll_strip '/' [ 't', 'c', 'p' ] d (digits_ne_slash d h2)
  rw [scanPortLine]
  rw [hsplit]
  simp only [List.headD, List.get?]
  rw [hstrip]
  rw [parseUint64_digits d h1 h2 h3]

lemma scanPortLines_render (ls : List (Str × Str)) :
    ∀ m, (∀ pr ∈ ls, goodPortLine pr) →
    scanPortLines m (ls.map renderPortLine) = ScanOutcome.done (foldPortLines m ls) := by
  induction ls with
  | nil => intro m _; rw [List.map_nil, scanPortLines, foldPortLines, List.foldl_nil]
  | cons pr rest ih =>
    intro m h
    rw [List.map_cons, scanPortLines]
    rw [show renderPortLine pr = renderPortLine (pr.1, pr.2) by rfl]
    rw [scanPortLine_render m pr.1 pr.2 (by
      have := h pr (List.mem_cons_self _ _)
      exact this)]
    show scanPortLines (pmUpdate m (digitsVal pr.1) pr.2) (List.map renderPortLine rest) =
      ScanOutcome.done (foldPortLines m (pr :: rest))
    rw [ih (pmUpdate m (digitsVal pr.1) pr.2) (fun q hq => h q (List.mem_cons_of_mem _ hq))]
    rw [foldPortLines, foldPortLines, List.foldl_cons]

lemma pmLookup_pmUpdate (m : PortMap) (q p : Nat) (a : Str) :
    pmLookup (pmUpdate m q a) p =
      if p = q then some ((pmLookup m q).getD [] ++ [ a ]) else pmLookup m p := by
  induction m with
  | nil =>
    simp only [pmUpdate, pmLookup, Option.getD_none, List.nil_append]
    by_cases hpq : p = q
    · subst hpq
      simp
    · rw [if_neg (fun h : q = p => hpq h.symm), if_neg hpq]
  | cons e rest ih =>
    obtain ⟨ k, v ⟩ := e
    rw [pmUpdate]
    by_cases hkq : k = q
    · subst hkq
      rw [if_pos rfl]
      by_cases hpk : p = k
      · subst hpk
        rw [pmLookup, if_pos rfl, if_pos rfl, pmLookup, if_pos rfl]
        rfl
      · rw [pmLookup, if_neg (fun h : k = p => hpk h.symm), if_neg hpk, pmLookup,
          if_neg (fun h : k = p => hpk h.symm)]
    · rw [if_neg hkq]
      rw [pmLookup]
      by_cases hkp : k = p
      · subst hkp
        rw [if_pos rfl]
        rw [if_neg (fun h : k = q => hkq h)]
        rw [pmLookup, if_pos rfl]
      · rw [if_neg hkp, ih]
        by_cases hpq : p = q
        · rw [if_pos hpq, if_pos hpq]
          rw [pmLookup, if_neg hkq]
        · rw [if_neg hpq, if_neg hpq]
          rw [pmLookup, if_neg hkp]

lemma collectAddrs_eq_val (p : Nat) (ls : List (Str × Str)) (h : ∀ pr ∈ ls, goodPortLine pr) :
    collectAddrs p ls = collectValAddrs p ls := by
  induction ls with
  | nil => rfl
  | cons pr rest ih =>
    obtain ⟨ h1, h2, h3, _ ⟩ := h pr (List.mem_cons_self _ _)
    rw [collectAddrs, collectValAddrs]
    rw [parseUint64_digits pr.1 h1 h2 h3]
    have ihr := ih (fun q hq => h q (List.mem_cons_of_mem _ hq))
    by_cases hv : digitsVal pr.1 = p
    · rw [if_pos (by rw [hv]), if_pos hv, ihr]
    · rw [if_neg (fun he => hv (Option.some.inj he)), if_neg hv, ihr]

lemma pmLookup_foldPortLines (ls : List (Str × Str)) :
    ∀ m p, pmLookup (foldPortLines m ls) p = lookupD (pmLookup m p) (collectValAddrs p ls) := by
  induction ls with
  | nil =>
    intro m p
    rw [foldPortLines, List.foldl_nil, collectValAddrs, lookupD, if_pos rfl]
  | cons pr rest ih =>
    intro m p
    rw [foldPortLines, List.foldl_cons]
    rw [show List.foldl (fun acc pr2 => pmUpdate acc (digitsVal pr2.1) pr2.2)
        (pmUpdate m (digitsVal pr.1) pr.2) rest =
      foldPortLines (pmUpdate m (digitsVal pr.1) pr.2) rest from rfl]
    rw [ih]
    rw [pmLookup_pmUpdate]
    rw [collectValAddrs]
    by_cases hv : digitsVal pr.1 = p
    · subst hv
      rw [if_pos rfl, if_pos rfl]
      rw [lookupD, lookupD]
      rw [if_neg (List.cons_ne_nil pr.2 (collectValAddrs (digitsVal pr.1) rest))]
      by_cases hC : collectValAddrs (digitsVal pr.1) rest = []
      · rw [if_pos hC, hC]
      · rw [if_neg hC]
        simp [List.append_assoc]
    · rw [if_neg (fun he => hv he.symm), if_neg hv]

lemma scanPortLines_append (pre l2 : List Str) :
    ∀ m m2, scanPortLines m pre = ScanOutcome.done m2 →
    scanPortLines m (pre ++ l2) = scanPortLines m2 l2 := by
  induction pre with
  | nil =>
    intro m m2 h
    rw [scanPortLines] at h
    cases h
    rw [List.nil_append]
  | cons t rest ih =>
    intro m m2 h
    rw [scanPortLines] at h
    rw [List.cons_append, scanPortLines]
    cases hline : scanPortLine m t with
    | panicked => rw [hline] at h; exact absurd h (by simp)
    | parseFailed => rw [hline] at h; exact absurd h (by simp)
    | okLine m3 =>
      rw [hline] at h
      exact ih m3 m2 h

/-- C7: for output lines of the form "<port>/tcp -> <addr>", the internal
port is the unsigned integer value of the left-hand side after removing
"/tcp", the right-hand side is stored verbatim, and a port with several
published lines collects all its addresses in line order. -/
theorem c7_published_line_parsing (e : String) (ls : List (Str × Str))
    (h : ∀ pr ∈ ls, goodPortLine pr) :
    getPublishedPorts none e (ls.map renderPortLine) =
      GoResult.returned (some (foldPortLines [] ls)) none ∧
    ∀ p, pmLookup (foldPortLines [] ls) p =
      (if collectAddrs p ls = [] then none else some (collectAddrs p ls)) := by
  constructor
  · rw [getPublishedPorts]
    rw [scanPortLines_render ls [] h]
  · intro p
    rw [pmLookup_foldPortLines]
    rw [collectAddrs_eq_val p ls h]
    rw [lookupD]
    rw [pmLookup]
    by_cases hC : collectValAddrs p ls = []
    · rw [if_pos hC, if_pos hC]
    · rw [if_neg hC, if_neg hC]
      rfl

/-- C7 witness: two lines publishing internal port 80 yield both host
addresses, in line order. -/
theorem c7_published_line_parsing_witness :
    getPublishedPorts none ""
      (List.map renderPortLine
        [ ("80".toList, "0.0.0.0:49155".toList), ("80".toList, "1.2.3.4:49156".toList) ]) =
      GoResult.returned
        (some [ (80, [ "0.0.0.0:49155".toList, "1.2.3.4:49156".toList ]) ]) none ∧
    pmLookup (foldPortLines []
        [ ("80".toList, "0.0.0.0:49155".toList), ("80".toList, "1.2.3.4:49156".toList) ]) 80 =
      some [ "0.0.0.0:49155".toList, "1.2.3.4:49156".toList ] := by
  have h := c7_published_line_parsing ""
    [ ("80".toList, "0.0.0.0:49155".toList), ("80".toList, "1.2.3.4:49156".toList) ]
    (by decide)
  exact ⟨ h.1.trans (by decide), (h.2 80).trans (by decide) ⟩

/-- C9: when the command exits zero but a line's left-hand side fails to
parse, `getPublishedPorts` returns the nil map together with the stale nil
error of the command run, and the discovery loop treats such a result as
"no ports published yet" and keeps polling. -/
theorem c9_parse_failure_swallowed (e : String) (pre : List Str) (bad : Str)
    (rest : List Str) (m : PortMap) (ticks : List PortTick)
    (hpre : scanPortLines [] pre = ScanOutcome.done m)
    (hbad : scanPortLine m bad = LineResult.parseFailed) :
    getPublishedPorts none e (pre ++ bad :: rest) = GoResult.returned none none ∧
    portLoop (PortTick.query none none :: ticks) = portLoop ticks := by
  constructor
  · rw [getPublishedPorts]
    rw [scanPortLines_append pre (bad :: rest) [] m hpre]
    rw [scanPortLines, hbad]
  · simp [portLoop]

/-- C9 witness: a single malformed line produces the (nil, nil) result and
the loop consumes the tick without an outcome. -/
theorem c9_parse_failure_swallowed_witness :
    getPublishedPorts none "" [ "oops -> 0.0.0.0:1".toList ] = GoResult.returned none none ∧
    portLoop [ PortTick.query none none ] = none := by
  have h := c9_parse_failure_swallowed "" [] "oops -> 0.0.0.0:1".toList [] [] []
    (by decide) (by decide)
  exact ⟨ h.1, h.2.trans (by rfl) ⟩

lemma hasOcc_head_ne (c0 : Char) (sep : Str) :
    ∀ s : Str, (∀ c ∈ s, c ≠ c0) → hasOcc (c0 :: sep) s = false := by
  intro s
  induction s with
  | nil => intro _; rfl
  | cons c rest ih =>
    intro h
    rw [hasOcc]
    rw [isPrefixOf_cons_ne c0 c sep rest (h c (List.mem_cons_self _ _))]
    rw [Bool.false_or]
    exact ih (fun x hx => h x (List.mem_cons_of_mem _ hx))

lemma digits_all_ne (d : Str) (x : Char) (h : d.all (fun c => c.isDigit) = true)
    (hx : x.isDigit = false) : ∀ c ∈ d, c ≠ x := by
  intro c hc
  exact digit_ne_of_not_digit c x (by simpa using List.all_eq_true.mp h c hc) hx

lemma goSplit_addr (pr : Str × Str) (h : goodAddr pr) :
    goSplit [ ':' ] (renderAddr pr) = [ pr.1, pr.2 ] := by
  obtain ⟨ h1, h2, h3, h4 ⟩ := h
  have hocc : hasOcc (':' :: []) pr.2 = false :=
    hasOcc_head_ne ':' [] pr.2 (digits_all_ne pr.2 ':' h3 (by decide))
  rw [renderAddr]
  rw [show (pr.1 ++ ':' :: pr.2 : Str) = pr.1 ++ (':' :: []) ++ pr.2 from by simp]
  rw [goSplit]
  rw [splitOnSepAux_boundary ':' [] pr.1 pr.2 h1]
  rw [splitOnSepAux_no_occ ':' [] pr.2 hocc]

lemma exposedLoop_addrs (pairs : List (Str × Str)) :
    ∀ acc, (∀ pr ∈ pairs, goodAddr pr) →
    exposedLoop (pairs.map renderAddr) acc =
      some (some (acc ++ pairs.map (fun pr => digitsVal pr.2)), true) := by
  induction pairs with
  | nil =>
    intro acc _
    rw [List.map_nil, exposedLoop, List.map_nil, List.append_nil]
  | cons pr rest ih =>
    intro acc h
    obtain ⟨ h1, h2, h3, h4 ⟩ := h pr (List.mem_cons_self _ _)
    rw [List.map_cons, exposedLoop]
    rw [goSplit_addr pr ⟨ h1, h2, h3, h4 ⟩]
    simp only [List.get?]
    rw [parseUint64_digits pr.2 h2 h3 h4]
    show exposedLoop (List.map renderAddr rest) (acc ++ [ digitsVal pr.2 ]) =
      some (some (acc ++ List.map (fun pr => digitsVal pr.2) (pr :: rest)), true)
    rw [ih (acc ++ [ digitsVal pr.2 ]) (fun q hq => h q (List.mem_cons_of_mem _ hq))]
    rw [List.map_cons]
    simp [List.append_assoc]

/-- C8: a port absent from the handle's mapping (in particular every port
of a handle with the empty mapping) yields `(nil, false)`; a port present
with well-formed "<ip>:<port>" addresses yields the parsed host ports and
`true`. -/
theorem c8_exposed_ports (c : Container) (port : Nat) (pairs : List (Str × Str)) :
    (pmLookup c.portMappings port = none → ExposedPorts c port = some (none, false)) ∧
    (∀ idStr p2, ExposedPorts (Container.mk idStr []) p2 = some (none, false)) ∧
    (pmLookup c.portMappings port = some (pairs.map renderAddr) →
      (∀ pr ∈ pairs, goodAddr pr) →
      ExposedPorts c port = some (some (pairs.map (fun pr => digitsVal pr.2)), true)) := by
  refine ⟨ ?_, ?_, ?_ ⟩
  · intro h
    rw [ExposedPorts, h]
  · intro idStr p2
    rw [ExposedPorts]
    rw [show pmLookup (Container.mk idStr []).portMappings p2 = none from rfl]
  · intro h hg
    rw [ExposedPorts, h]
    show exposedLoop (pairs.map renderAddr) [] =
      some (some (pairs.map (fun pr => digitsVal pr.2)), true)
    rw [exposedLoop_addrs pairs [] hg]
    rw [List.nil_append]

/-- C8 witness: a handle exposing only internal port 27017 answers that
port with the parsed host ports and answers 9999 with `(nil, false)`. -/
theorem c8_exposed_ports_witness :
    ExposedPorts
      (Container.mk "abcdef123456" [ (27017, [ "0.0.0.0:49155".toList ]) ]) 27017 =
      some (some [ 49155 ], true) ∧
    ExposedPorts
      (Container.mk "abcdef123456" [ (27017, [ "0.0.0.0:49155".toList ]) ]) 9999 =
      some (none, false) ∧
    ExposedPorts (Container.mk "empty00empty" []) 27017 = some (none, false) := by
  refine ⟨ ?_, ?_, ?_ ⟩
  · have h := (c8_exposed_ports
      (Container.mk "abcdef123456" [ (27017, [ "0.0.0.0:49155".toList ]) ]) 27017
      [ ("0.0.0.0".toList, "49155".toList) ]).2.2 (by decide) (by decide)
    exact h.trans (by decide)
  · exact (c8_exposed_ports
      (Container.mk "abcdef123456" [ (27017, [ "0.0.0.0:49155".toList ]) ]) 9999
      []).1 (by decide)
  · exact (c8_exposed_ports (Container.mk "empty00empty" []) 1 []).2.1 "empty00empty" 27017

/-- C5: whenever the launch fails after the start command succeeded —
liveness failure, port-discovery failure, or cancellation surfacing
through either poller — `newContainer` returns no handle, the error wraps
the original failure together with the container's latest logs, and a
best-effort `Stop` of the started container is attempted under a fresh
5-second budget independent of the caller's context. -/
theorem c5_cleanup_on_late_failure (env : LaunchEnv) (exposedPorts : List (Nat × Nat))
    (id e : String) (hstart : env.startRes = Except.ok id) :
    (containerIsAlive env.aliveTicks = some (AliveOutcome.failed e) →
      newContainer env exposedPorts = some (LaunchOutcome.mk
        (Except.error (launchFailMsg env.imageName id e env.logs))
        [ (id, CleanupCtx.freshTimeout 5000) ])) ∧
    (containerIsAlive env.aliveTicks = some AliveOutcome.ready → exposedPorts ≠ [] →
      portLoop env.portTicks = some (Except.error e) →
      newContainer env exposedPorts = some (LaunchOutcome.mk
        (Except.error (launchFailMsg env.imageName id e env.logs))
        [ (id, CleanupCtx.freshTimeout 5000) ])) ∧
    (launchFailMsg env.imageName id e env.logs =
      ("[" ++ env.imageName ++ "](" ++ id ++ ") ") ++ e ++ ("\nlogs:" ++ env.logs)) := by
  refine ⟨ ?_, ?_, ?_ ⟩
  · intro halive
    simp only [newContainer, hstart, halive]
  · intro halive hne hport
    simp only [newContainer, hstart, halive]
    rw [if_pos (List.length_pos.mpr hne)]
    rw [hport]
  · rw [launchFailMsg]
    simp [String.append_assoc]

/-- C5 witness: a start that succeeded followed by an `exited` liveness
observation produces the wrapped error and one fresh-budget Stop attempt
of the started container. -/
theorem c5_cleanup_on_late_failure_witness :
    newContainer
      (LaunchEnv.mk "img" (Except.ok "abcdef123456")
        [ InspectTick.inspected stateExited "boom" ] [] "LOGS") [ (80, 0) ] =
      some (LaunchOutcome.mk
        (Except.error (launchFailMsg "img" "abcdef123456"
          (invalidStateMsg stateExited "boom") "LOGS"))
        [ ("abcdef123456", CleanupCtx.freshTimeout 5000) ]) := by
  exact (c5_cleanup_on_late_failure
    (LaunchEnv.mk "img" (Except.ok "abcdef123456")
      [ InspectTick.inspected stateExited "boom" ] [] "LOGS") [ (80, 0) ]
    "abcdef123456" (invalidStateMsg stateExited "boom") rfl).1 (by decide)

/-- C3: Stop runs stop, volume enumeration, container removal, then — only
when at least one volume was enumerated — a single batched volume
deletion; the first failing step's error is returned and no later step is
attempted. In particular a failing stop (externally removed container)
leaves the trace at the stop step alone. -/
theorem c3_stop_sequence (env : StopEnv) :
    (∀ e, env.stopRes = some e → Stop env = (some e, [ StopStep.stopStep ])) ∧
    (∀ e, env.stopRes = none → env.volsRes = Except.error e →
      Stop env = (some e, [ StopStep.stopStep, StopStep.volsStep ])) ∧
    (∀ e ids, env.stopRes = none → env.volsRes = Except.ok ids → env.removeRes = some e →
      Stop env = (some e, [ StopStep.stopStep, StopStep.volsStep, StopStep.removeStep ])) ∧
    (env.stopRes = none → env.volsRes = Except.ok [] → env.removeRes = none →
      Stop env = (none, [ StopStep.stopStep, StopStep.volsStep, StopStep.removeStep ])) ∧
    (∀ ids, ids ≠ [] → env.stopRes = none → env.volsRes = Except.ok ids →
      env.removeRes = none →
      Stop env = (env.deleteRes,
        [ StopStep.stopStep, StopStep.volsStep, StopStep.removeStep,
          StopStep.deleteStep ids ])) := by
  refine ⟨ ?_, ?_, ?_, ?_, ?_ ⟩
  · intro e h
    simp only [Stop, h]
  · intro e h1 h2
    simp only [Stop, h1, h2]
  · intro e ids h1 h2 h3
    simp only [Stop, h1, h2, h3]
  · intro h1 h2 h3
    simp only [Stop, h1, h2, h3]
    simp
  · intro ids hne h1 h2 h3
    simp only [Stop, h1, h2, h3]
    rw [if_neg hne]

/-- C3 witness: a stop failure (container already gone) returns that error
with only the stop step attempted; a successful run over one volume ends
with the batched deletion of exactly that volume. -/
theorem c3_stop_sequence_witness :
    Stop (StopEnv.mk (some "unable to stop container: gone") (Except.ok [ "v1" ]) none none) =
      (some "unable to stop container: gone", [ StopStep.stopStep ]) ∧
    Stop (StopEnv.mk none (Except.ok [ "v1" ]) none none) =
      (none, [ StopStep.stopStep, StopStep.volsStep, StopStep.removeStep,
        StopStep.deleteStep [ "v1" ] ]) := by
  constructor
  · exact (c3_stop_sequence
      (StopEnv.mk (some "unable to stop container: gone") (Except.ok [ "v1" ]) none none)).1
      "unable to stop container: gone" rfl
  · exact (c3_stop_sequence (StopEnv.mk none (Except.ok [ "v1" ]) none none)).2.2.2.2
      [ "v1" ] (by decide) rfl rfl rfl

/-- C4: a tick fails hard exactly when the adapter reported an error
together with the -1 sentinel; whenever the probe ran (code different
from -1) the predicate is consulted even under an adapter error; at the
loop level the hard failure returns immediately regardless of later
ticks, a true predicate returns success immediately, and a false
predicate just moves to the next tick. -/
theorem c4_wait_cmd (met : String → String → Int → Bool) (p : ProbeResult)
    (rest : List WaitInput) :
    ((∃ m, waitCmdTick met p = WaitTick.failNow m) ↔
      (p.runErr.isSome = true ∧ p.code = -1)) ∧
    (p.code ≠ -1 → waitCmdTick met p =
      (if met p.stdOutCap p.stdErrCap p.code then WaitTick.succeeded else WaitTick.nextTick)) ∧
    (p.runErr.isSome = true → p.code = -1 →
      WaitCmd met (WaitInput.probe p :: rest) = some (some (waitErrMsg p))) ∧
    (¬(p.runErr.isSome = true ∧ p.code = -1) → met p.stdOutCap p.stdErrCap p.code = true →
      WaitCmd met (WaitInput.probe p :: rest) = some none) ∧
    (¬(p.runErr.isSome = true ∧ p.code = -1) → met p.stdOutCap p.stdErrCap p.code = false →
      WaitCmd met (WaitInput.probe p :: rest) = WaitCmd met rest) := by
  refine ⟨ ?_, ?_, ?_, ?_, ?_ ⟩
  · constructor
    · intro hm
      obtain ⟨ m, hm ⟩ := hm
      rw [waitCmdTick] at hm
      by_cases hc : p.runErr.isSome = true ∧ p.code = -1
      · exact hc
      · rw [if_neg hc] at hm
        by_cases hmet : met p.stdOutCap p.stdErrCap p.code
        · rw [if_pos hmet] at hm
          exact absurd hm (by simp)
        · rw [if_neg hmet] at hm
          exact absurd hm (by simp)
    · intro hc
      exact ⟨ waitErrMsg p, by rw [waitCmdTick, if_pos hc] ⟩
  · intro hcode
    rw [waitCmdTick, if_neg (fun hc => hcode hc.2)]
  · intro herr hcode
    simp only [WaitCmd]
    rw [waitCmdTick, if_pos ⟨ herr, hcode ⟩]
  · intro hc hmet
    simp only [WaitCmd]
    rw [waitCmdTick, if_neg hc, if_pos hmet]
  · intro hc hmet
    simp only [WaitCmd]
    rw [waitCmdTick, if_neg hc, if_neg (by rw [hmet]; exact Bool.false_ne_true)]

/-- C4 witness: an adapter error with the -1 sentinel fails at once even
with more ticks pending; a probe that exits 0 under the code-equals-zero
predicate succeeds at once; a failing probe with exit 1 just keeps
polling. -/
theorem c4_wait_cmd_witness :
    WaitCmd (fun _ _ code => code == 0)
      [ WaitInput.probe (ProbeResult.mk "" "no docker" (-1) (some "exec failed")),
        WaitInput.ctxDone "late" ] =
      some (some (waitErrMsg (ProbeResult.mk "" "no docker" (-1) (some "exec failed")))) ∧
    WaitCmd (fun _ _ code => code == 0)
      [ WaitInput.probe (ProbeResult.mk "ok" "" 0 none) ] = some none ∧
    WaitCmd (fun _ _ code => code == 0)
      [ WaitInput.probe (ProbeResult.mk "" "" 1 (some "exit status 1")) ] = none := by
  refine ⟨ ?_, ?_, ?_ ⟩
  · exact (c4_wait_cmd (fun _ _ code => code == 0)
      (ProbeResult.mk "" "no docker" (-1) (some "exec failed"))
      [ WaitInput.ctxDone "late" ]).2.2.1 rfl rfl
  · exact (c4_wait_cmd (fun _ _ code => code == 0)
      (ProbeResult.mk "ok" "" 0 none) []).2.2.2.1 (by simp) (by decide)
  · exact ((c4_wait_cmd (fun _ _ code => code == 0)
      (ProbeResult.mk "" "" 1 (some "exit status 1")) []).2.2.2.2 (by simp) (by decide)).trans
      (by rfl)

/-- C10: for every key and value, the appended entry is the uppercased key
followed by "=" and the untouched value; the key is not passed verbatim
whenever it contains a lowercase letter. -/
theorem c10_with_env_var (key value : String) (cfg : containerCfg) :
    (WithEnvVar key value cfg).env =
      some (cfg.env.getD [] ++ [ goToUpper key ++ "=" ++ value ]) ∧
    (WithEnvVar key value cfg).args = cfg.args ∧
    goToUpper "mongo_initdb_root" = "MONGO_INITDB_ROOT" ∧
    goToUpper "key" ≠ "key" := by
  refine ⟨ rfl, rfl, by decide, by decide ⟩

end DFT
